import Mathlib

/-!
Shallow embedding of the dataflow-attribute engine of
`dataflowAttributes.py` (classes `AttrNullState`, `DependentAttr`,
`IndependentAttr`, `DeterminantAttr`) together with the example owner
type of `example.py` (`DataflowSuccess`).

Modelling conventions, all taken from the source:

* A Python object reference is `PyVal α`: either the `None` singleton or
  an object with an identity (`objId : Nat`) and a payload of type `α`.
  Python's `is` compares identities only and never looks at the payload;
  Python's `==` would compare payloads.  The engine itself only ever uses
  `is` (lines 76, 92, 106, 114 of `dataflowAttributes.py`).
* A slot's stored `value` is `Option (PyVal α)` where `none` stands for
  the distinguished `AttrNullState` marker.
* `DependentAttr` instances are class attributes (descriptors), so the
  mutable fields `value` and `children` live on the descriptor object,
  one per owner TYPE, shared by every instance of that type.  The engine
  state `State α` is therefore the type-level map from attribute name to
  descriptor slot; `instanceGetattr` / `instanceSetattr` expose attribute
  access through a particular instance, whose identity has no effect on
  slot state (the `obj` argument of `__get__`/`__set__` is only used for
  method binding and `hasattr`).
* Recursive `__get__` / `__set__` calls are modelled with explicit fuel;
  running out of fuel is the error `Err.fuelOut` (a Python stack
  overflow).  All other `ValueError`s raised by the source get one
  constructor each.
* `hasattr(obj, dependency)` (line 79) invokes `getattr`, i.e. the full
  `__get__` protocol of the dependency; it answers `False` only when the
  attribute is genuinely absent (an `AttributeError`), while `ValueError`s
  raised during the dependency's resolution propagate.  The model's
  dependency loop mirrors this: a missing attribute raises
  `Err.missingDep`, otherwise the dependency is resolved (errors
  propagate), the reader is registered as a child, and the dependency is
  read a second time (line 90), a memoization hit.
* The check `attr_value is AttrNullState` of lines 91-95 is modelled by
  re-reading the dependency's stored value after the (successful) second
  get: `__get__` always returns exactly the stored value, so the two
  formulations agree.  The `isinstance(..., DependentAttr)` guard is
  `True` in the model because every declared attribute is a descriptor.
* A compute method (`calc_func`) is looked up in a `ComputeEnv`; it is a
  bound method that may read the already-resolved attribute values and,
  per its contract, assigns its target attribute through the full
  `__set__` protocol.  `impl` returning `none` models a compute method
  that violates its contract by not assigning anything.
-/

namespace Dataflow

/-- Attribute and method names are Python strings. -/
abbrev Name := String

/-- A Python object reference: the `None` singleton, or an object with an
identity (`objId`) and a payload.  `is` compares identities. -/
inductive PyVal (α : Type) : Type
  | pyNone : PyVal α
  | obj (objId : Nat) (payload : α) : PyVal α
  deriving DecidableEq, Repr

/-- Python's `is` on two slot contents, where `none` is the
`AttrNullState` singleton and `PyVal.pyNone` is the `None` singleton.
Two objects are identical exactly when they have the same `objId`;
payloads are never inspected (faithful to `self.value is not value`,
line 114). -/
def valIs {α : Type} : Option (PyVal α) → Option (PyVal α) → Bool
  | none, none => true
  | some .pyNone, some .pyNone => true
  | some (.obj i _), some (.obj j _) => i == j
  | _, _ => false

/-- The payload carried by an object reference, if any. -/
def pyPayload {α : Type} : PyVal α → Option α
  | .pyNone => none
  | .obj _ p => some p

/-- One descriptor (`DependentAttr.__init__`, lines 44-67): the mutable
`value` (with `none` = `AttrNullState`) and `children`, and the static
`dependencies`, `calc_func` and `name`. -/
structure Slot (α : Type) : Type where
  value : Option (PyVal α)
  dependencies : List Name
  calc_func : Option Name
  name : Name
  children : List Name
  deriving DecidableEq, Repr

/-- The class-level state of an owner type: the list of declared
attribute names and the descriptor slot stored under each name. -/
structure State (α : Type) : Type where
  attrs : List Name
  slotOf : Name → Slot α

/-- Replace the stored value of the slot named `an` (the assignment
`self.value = value`, line 115). -/
def State.setValue {α : Type} (st : State α) (an : Name) (v : Option (PyVal α)) :
    State α :=
  { st with
    slotOf := fun n => if n = an then { st.slotOf an with value := v } else st.slotOf n }

/-- Registration of a child: `parent.children.append(self.name)` guarded by
`self.name not in parent.children` (lines 87-88). -/
def State.addChild {α : Type} (st : State α) (dep child : Name) : State α :=
  let s := st.slotOf dep
  if child ∈ s.children then st
  else
    { st with
      slotOf := fun n =>
        if n = dep then { s with children := s.children ++ [child] } else st.slotOf n }

/-- Run a state-transforming action over a list of names, stopping at the
first failure.  Used for the invalidation loop of `__set__`
(`for child in self.children`, lines 117-119). -/
def cascadeList {α : Type} (setf : State α → Name → Option (State α)) :
    State α → List Name → Option (State α)
  | st, [] => some st
  | st, c :: cs =>
    match setf st c with
    | none => none
    | some st' => cascadeList setf st' cs

/-- The write protocol `DependentAttr.__set__` (lines 111-119), with explicit fuel for the
recursive invalidation cascade: if the written value `is` the stored one,
do nothing; otherwise store it and recursively write `AttrNullState` to
every currently-known child. -/
def setAttrFuel {α : Type} : Nat → State α → Name → Option (PyVal α) → Option (State α)
  | 0, _, _, _ => none
  | fuel + 1, st, an, v =>
    let slot := st.slotOf an
    if valIs slot.value v then some st
    else cascadeList (fun s c => setAttrFuel fuel s c none) (st.setValue an v) slot.children

/-- Errors raised by the engine, one constructor per `raise` of the
source (plus fuel exhaustion for unbounded recursion):
`missingDep` = line 80, `depNull` = line 94 (the `DependencyUpdateError`
of the spec), `missingCalc` = line 103, `staleCalc` = line 107 (the
`StaleComputeError` of the spec). -/
inductive Err : Type
  | fuelOut : Err
  | missingDep (dep an : Name) : Err
  | depNull (an dep : Name) : Err
  | missingCalc (an f : Name) : Err
  | staleCalc (an : Name) : Err
  deriving DecidableEq, Repr

/-- A bound compute method: per the compute-method contract it reads the
current attribute values and assigns `target` through `__set__`; `impl`
returning `none` models a method that makes no assignment at all
(violating its contract). -/
structure ComputeFn (α : Type) : Type where
  target : Name
  impl : (Name → Option (PyVal α)) → Option (PyVal α)

/-- The owner type's method table: `getattr(obj, self.calc_func, None)`
(line 98). -/
def ComputeEnv (α : Type) : Type := Name → Option (ComputeFn α)

/-- The dependency loop of `DependentAttr.__get__` (lines 78-95),
parameterized by the recursive getter `getf`.  For each dependency `d` of
the reader `an`: `hasattr` (which itself resolves `d`; a truly missing
attribute raises `missingDep`, other errors propagate), then register
`an` as a child of `d`, then read `d` again (a memoization hit), then the
lines 91-95 check on the resolved value. -/
def depLoop {α : Type}
    (getf : State α → Name → Except Err (PyVal α × State α × List Name))
    (an : Name) : State α → List Name → Except Err (State α × List Name)
  | st, [] => .ok (st, [])
  | st, d :: ds =>
    if d ∈ st.attrs then
      match getf st d with
      | .error e => .error e
      | .ok (_, st1, log1) =>
        match getf (st1.addChild d an) d with
        | .error e => .error e
        | .ok (_, st3, log2) =>
          match (st3.slotOf d).value with
          | none => .error (.depNull an d)
          | some _ =>
            match depLoop getf an st3 ds with
            | .error e => .error e
            | .ok (st4, log3) => .ok (st4, log1 ++ log2 ++ log3)
    else .error (.missingDep d an)

/-- The compute step of `__get__` (lines 96-104): if a `calc_func` name
is declared, look it up on the owner (`missingCalc` if absent) and invoke
it, logging the invocation; its assignment, if it makes one, goes through
the full `__set__` protocol. -/
def runCalc {α : Type} (env : ComputeEnv α) (fuel : Nat) (an : Name)
    (cfn : Option Name) (st1 : State α) (log1 : List Name) :
    Except Err (State α × List Name) :=
  match cfn with
  | none => .ok (st1, log1)
  | some f =>
    match env f with
    | none => .error (.missingCalc an f)
    | some cf =>
      match cf.impl (fun n => (st1.slotOf n).value) with
      | none => .ok (st1, log1 ++ [an])
      | some v =>
        match setAttrFuel fuel st1 cf.target (some v) with
        | none => .error .fuelOut
        | some st2 => .ok (st2, log1 ++ [an])

/-- The return guard of `__get__` (lines 105-109): raise `staleCalc` if
the slot is still invalid, otherwise return the (freshly stored)
value. -/
def finishGet {α : Type} (an : Name) :
    Except Err (State α × List Name) →
    Except Err (PyVal α × State α × List Name)
  | .error e => .error e
  | .ok (st2, log2) =>
    match (st2.slotOf an).value with
    | none => .error (.staleCalc an)
    | some v => .ok (v, st2, log2)

/-- The read protocol `DependentAttr.__get__` (lines 69-109) with
explicit fuel, returning the read value, the updated state, and the log
of attributes whose compute method was invoked (the call `update_func()`
of line 102).  A non-`AttrNullState` value is returned immediately;
otherwise the dependency loop runs, then the compute step, then the
stale-value guard. -/
def getFuel {α : Type} (env : ComputeEnv α) :
    Nat → State α → Name → Except Err (PyVal α × State α × List Name)
  | 0, _, _ => .error .fuelOut
  | fuel + 1, st, an =>
    let slot := st.slotOf an
    match slot.value with
    | some v => .ok (v, st, [])
    | none =>
      match depLoop (getFuel env fuel) an st slot.dependencies with
      | .error e => .error e
      | .ok (st1, log1) => finishGet an (runCalc env fuel an slot.calc_func st1 log1)

/-- Attribute read through a particular instance.  The descriptor's
mutable state is class-level, so the instance identity does not enter the
computation (`__get__(self, obj, objtype)` reads `self.value`). -/
def instanceGetattr {α : Type} (_instance : Nat) (env : ComputeEnv α)
    (fuel : Nat) (st : State α) (an : Name) :
    Except Err (PyVal α × State α × List Name) :=
  getFuel env fuel st an

/-- Attribute write through a particular instance; like reads, writes act
on the class-level descriptor state only. -/
def instanceSetattr {α : Type} (_instance : Nat) (fuel : Nat) (st : State α)
    (an : Name) (v : Option (PyVal α)) : Option (State α) :=
  setAttrFuel fuel st an v

/-- Constructor `DependentAttr.__init__` (lines 44-63): `dependencies=None` becomes
`[]`; an `init_value` of Python `None` together with a nonempty
dependency list becomes `AttrNullState`; `children` starts empty. -/
def DependentAttr_init {α : Type} (init_value : Option (PyVal α))
    (dependencies : Option (List Name)) (calc_func : Option Name) (name : Name) :
    Slot α :=
  let deps := match dependencies with
    | none => []
    | some l => l
  let v := match init_value, deps with
    | some .pyNone, _ :: _ => none
    | iv, _ => iv
  { value := v, dependencies := deps, calc_func := calc_func, name := name,
    children := [] }

/-- Constructor `IndependentAttr.__init__` (lines 121-138): delegates with
`dependencies=[]`, `calc_func=None`. -/
def IndependentAttr_init {α : Type} (init_value : Option (PyVal α)) (name : Name) :
    Slot α :=
  DependentAttr_init init_value (some []) none name

/-- Constructor `DeterminantAttr.__init__` (lines 140-159): delegates with
`init_value=AttrNullState`. -/
def DeterminantAttr_init {α : Type} (dependencies : Option (List Name))
    (calc_func : Option Name) (name : Name) : Slot α :=
  DependentAttr_init none dependencies calc_func name

/-- Number of declared attributes currently holding a concrete
(non-`AttrNullState`) value; the measure that bounds the invalidation
cascade. -/
def validCount {α : Type} (st : State α) : Nat :=
  st.attrs.countP fun n => ((st.slotOf n).value).isSome

/-- The lazily-discovered `children` lists are sound: every registered
child of a declared attribute really declares it as a dependency. -/
def childrenOK {α : Type} (st : State α) : Prop :=
  ∀ d ∈ st.attrs, ∀ c ∈ (st.slotOf d).children, d ∈ (st.slotOf c).dependencies

/-- Two states agree on everything except stored values: same declared
attributes and, for every name, the same `children`, `dependencies`,
`calc_func` and `name` fields.  The write protocol only ever moves
between states in this relation. -/
structure SameShape {α : Type} (st st' : State α) : Prop where
  attrs_eq : st'.attrs = st.attrs
  children_eq : ∀ n, (st'.slotOf n).children = (st.slotOf n).children
  deps_eq : ∀ n, (st'.slotOf n).dependencies = (st.slotOf n).dependencies
  calc_eq : ∀ n, (st'.slotOf n).calc_func = (st.slotOf n).calc_func
  name_eq : ∀ n, (st'.slotOf n).name = (st.slotOf n).name

/-- How one engine operation may move the state: the declared shape
(attribute list, dependencies, compute bindings) is untouched, `children`
lists only grow, and every newly registered child `c` of `n` really
declares `n` among its dependencies. -/
structure Evolves {α : Type} (st st' : State α) : Prop where
  attrs_eq : st'.attrs = st.attrs
  deps_eq : ∀ n, (st'.slotOf n).dependencies = (st.slotOf n).dependencies
  calc_eq : ∀ n, (st'.slotOf n).calc_func = (st.slotOf n).calc_func
  child_mono : ∀ n c, c ∈ (st.slotOf n).children → c ∈ (st'.slotOf n).children
  child_new : ∀ n c, c ∈ (st'.slotOf n).children →
    c ∈ (st.slotOf n).children ∨ n ∈ (st.slotOf c).dependencies

/-- Build a state from an association list of declared attributes; names
not in the list map to an inert placeholder slot (they are rejected by
the `hasattr` check before ever being used). -/
def mkState {α : Type} (l : List (Name × Slot α)) : State α :=
  { attrs := l.map (·.1)
    slotOf := fun n =>
      match l.find? (fun p => p.1 = n) with
      | some p => p.2
      | none =>
        { value := none, dependencies := [], calc_func := none, name := n,
          children := [] } }

/-! ## The example owner type (`example.py`, class `DataflowSuccess`)

The update methods of `DataflowSuccess` build parenthesized arithmetic
strings by concatenation; we embed those strings as the arithmetic
expressions they denote (`Expr`), respecting the parenthesization and
operator precedence of the built strings:

* `update_a2`: `'('+str(a1)+'+2'+')'`            = `a1 + 2`
* `update_a3`: `'('+a2+'+3)'`                     = `a2 + 3`
* `update_a4`: `'('+str(a1)+'*'+a2+'+4)'`         = `a1 * a2 + 4`
* `update_a5`: `'('+str(a1)+'+'+a2+'+'+a3+'*'+str(a6)+'+5)'`
                                                  = `a1 + a2 + a3 * a6 + 5`
* `update_a7`: `'('+a4+'*'+a5+'+7)'`              = `a4 * a5 + 7`

Each method assigns its own attribute (`self.aN = ...`), i.e. writes
through `__set__`.  Computed values are fresh string objects; we give
them `objId 0`, which is never compared against anything (the only `is`
comparisons they meet are against `AttrNullState`). -/

/-- Arithmetic expressions denoted by the example's generated strings. -/
inductive Expr : Type
  | num (n : Int) : Expr
  | add (a b : Expr) : Expr
  | mul (a b : Expr) : Expr
  deriving DecidableEq, Repr

/-- Numeric evaluation of a generated expression (what `eval` computes on
the built string in `update_a7`). -/
def Expr.evalE : Expr → Int
  | .num n => n
  | .add a b => a.evalE + b.evalE
  | .mul a b => a.evalE * b.evalE

/-- Read a dependency's expression payload out of the value map, as the
update methods do via plain attribute access on already-resolved
dependencies. -/
def readExpr (read : Name → Option (PyVal Expr)) (n : Name) : Option Expr :=
  match read n with
  | some (.obj _ e) => some e
  | _ => none

/-- The method table of `DataflowSuccess`: each `update_aN` reads its
declared dependencies and assigns `aN`. -/
def exEnv : ComputeEnv Expr := fun f =>
  if f = "update_a2" then
    some ⟨"a2", fun read => (readExpr read "a1").map fun e1 =>
      .obj 0 (.add e1 (.num 2))⟩
  else if f = "update_a3" then
    some ⟨"a3", fun read => (readExpr read "a2").map fun e2 =>
      .obj 0 (.add e2 (.num 3))⟩
  else if f = "update_a4" then
    some ⟨"a4", fun read =>
      match readExpr read "a1", readExpr read "a2" with
      | some e1, some e2 => some (.obj 0 (.add (.mul e1 e2) (.num 4)))
      | _, _ => none⟩
  else if f = "update_a5" then
    some ⟨"a5", fun read =>
      match readExpr read "a1", readExpr read "a2", readExpr read "a3",
          readExpr read "a6" with
      | some e1, some e2, some e3, some e6 =>
        some (.obj 0 (.add (.add (.add e1 e2) (.mul e3 e6)) (.num 5)))
      | _, _, _, _ => none⟩
  else if f = "update_a7" then
    some ⟨"a7", fun read =>
      match readExpr read "a4", readExpr read "a5" with
      | some e4, some e5 => some (.obj 0 (.add (.mul e4 e5) (.num 7)))
      | _, _ => none⟩
  else none

/-- The class-level state right after the class body of `DataflowSuccess`
runs (a fresh instance adds nothing: all slot state lives on the
descriptors).  `a1 = IndependentAttr(1, 'a1')`, `a6 = IndependentAttr(6,
'a6')`, the rest `DeterminantAttr`.  The two interned Python ints `1` and
`6` get the distinct identities 1 and 6. -/
def exInit : State Expr := mkState
  [ ("a1", IndependentAttr_init (some (.obj 1 (.num 1))) "a1")
  , ("a2", DeterminantAttr_init (some ["a1"]) (some "update_a2") "a2")
  , ("a3", DeterminantAttr_init (some ["a2"]) (some "update_a3") "a3")
  , ("a4", DeterminantAttr_init (some ["a1", "a2"]) (some "update_a4") "a4")
  , ("a5", DeterminantAttr_init (some ["a1", "a2", "a3", "a6"]) (some "update_a5") "a5")
  , ("a6", IndependentAttr_init (some (.obj 6 (.num 6))) "a6")
  , ("a7", DeterminantAttr_init (some ["a4", "a5"]) (some "update_a7") "a7") ]

/-- The first `program_good.a7` read. -/
def exFirst : Except Err (PyVal Expr × State Expr × List Name) :=
  getFuel exEnv 20 exInit "a7"

/-- Numeric value of the expression returned by the first `a7` read. -/
def exFirstEval : Except Err (Option Int) :=
  exFirst.map fun r => (pyPayload r.1).map Expr.evalE

/-- Compute-invocation log of the first `a7` read. -/
def exFirstLog : Except Err (List Name) := exFirst.map fun r => r.2.2

/-- State after the first `a7` read (falling back to the initial state on
error, which does not occur). -/
def exSt1 : State Expr :=
  match exFirst with
  | .ok (_, s, _) => s
  | .error _ => exInit

/-- The write `program_good.a6 = 4`: a fresh int object (identity 9). -/
def exSt2 : Option (State Expr) := setAttrFuel 20 exSt1 "a6" (some (.obj 9 (.num 4)))

/-- The second `program_good.a7` read, after `a6 = 4`. -/
def exSecond : Except Err (PyVal Expr × State Expr × List Name) :=
  match exSt2 with
  | some s => getFuel exEnv 20 s "a7"
  | none => .error .fuelOut

/-- Numeric value of the second `a7` read. -/
def exSecondEval : Except Err (Option Int) :=
  exSecond.map fun r => (pyPayload r.1).map Expr.evalE

/-- Compute-invocation log of the second `a7` read. -/
def exSecondLog : Except Err (List Name) := exSecond.map fun r => r.2.2

/-- State after the second `a7` read. -/
def exStFinal : State Expr :=
  match exSecond with
  | .ok (_, s, _) => s
  | .error _ => exInit

/-! ## Small concrete owner types for individual verification scenarios -/

/-- An owner type with no compute methods at all. -/
def noEnv : ComputeEnv Int := fun _ => none

/-- One independent attribute `a1 = 1` (the int object with identity 0),
used to observe reads and writes through two different instances. -/
def c1St : State Int :=
  { attrs := ["a1"]
    slotOf := fun n =>
      if n = "a1" then
        { value := some (.obj 0 1), dependencies := [], calc_func := none,
          name := "a1", children := [] }
      else
        { value := none, dependencies := [], calc_func := none, name := n,
          children := [] } }

/-- The state after instance 0 performs `a1 = 2` (a fresh int object with
identity 5). -/
def c1StW : State Int :=
  (instanceSetattr 0 3 c1St "a1" (some (.obj 5 2))).getD c1St

/-- Owner type with `A` holding the int object `5` (identity 0) whose
discovered child is `B`, itself holding the int object `9` (identity 1).
Used to write to `A` a second int object `5` (identity 2): equal by `==`
but a different object. -/
def c2St : State Int :=
  { attrs := ["A", "B"]
    slotOf := fun n =>
      if n = "A" then
        { value := some (.obj 0 5), dependencies := [], calc_func := none,
          name := "A", children := ["B"] }
      else if n = "B" then
        { value := some (.obj 1 9), dependencies := ["A"],
          calc_func := some "fB", name := "B", children := [] }
      else
        { value := none, dependencies := [], calc_func := none, name := n,
          children := [] } }

/-- The write `A = 5` with a distinct but `==`-equal object. -/
def c2Run : Option (State Int) := setAttrFuel 3 c2St "A" (some (.obj 2 5))

/-- Observed `(A.value, B.value)` after the write of `c2Run`. -/
def c2Obs : Option (Option (PyVal Int) × Option (PyVal Int)) :=
  c2Run.map fun s => ((s.slotOf "A").value, (s.slotOf "B").value)

/-- A single valid attribute `x`, for exercising repeated reads. -/
def c5St : State Int :=
  { attrs := ["x"]
    slotOf := fun n =>
      if n = "x" then
        { value := some (.obj 0 5), dependencies := [], calc_func := none,
          name := "x", children := [] }
      else
        { value := none, dependencies := [], calc_func := none, name := n,
          children := [] } }

/-- Owner type where `B` depends on `A` but has never been read: `A`'s
children list is still empty. -/
def c6St : State Int :=
  { attrs := ["A", "B"]
    slotOf := fun n =>
      if n = "A" then
        { value := some (.obj 0 1), dependencies := [], calc_func := none,
          name := "A", children := [] }
      else if n = "B" then
        { value := none, dependencies := ["A"], calc_func := some "fB",
          name := "B", children := [] }
      else
        { value := none, dependencies := [], calc_func := none, name := n,
          children := [] } }

/-- The state after writing a fresh value to `A` in `c6St`. -/
def c6StW : State Int :=
  (setAttrFuel 3 c6St "A" (some (.obj 5 2))).getD c6St

/-- Owner type whose derived dependency `D` has a compute method `bad`
that makes no assignment, violating the compute contract; `A` depends on
`D`. -/
def c7St : State Int :=
  { attrs := ["A", "D"]
    slotOf := fun n =>
      if n = "A" then
        { value := none, dependencies := ["D"], calc_func := some "fa",
          name := "A", children := [] }
      else if n = "D" then
        { value := none, dependencies := [], calc_func := some "bad",
          name := "D", children := [] }
      else
        { value := none, dependencies := [], calc_func := none, name := n,
          children := [] } }

/-- Method table for `c7St`: `bad` runs but assigns nothing; `fa` would
assign `A` but is never reached. -/
def c7Env : ComputeEnv Int := fun f =>
  if f = "bad" then some ⟨"D", fun _ => none⟩
  else if f = "fa" then some ⟨"A", fun _ => some (.obj 0 0)⟩
  else none

/-- Owner type whose dependent attribute `B` was DECLARED with a concrete
initial value (`DependentAttr(7, ['A'], 'fB', 'B')`), so it is valid from
construction and a read of it registers nothing. -/
def c8St : State Int :=
  { attrs := ["A", "B"]
    slotOf := fun n =>
      if n = "A" then
        { value := some (.obj 0 1), dependencies := [], calc_func := none,
          name := "A", children := [] }
      else if n = "B" then
        { value := some (.obj 1 7), dependencies := ["A"],
          calc_func := some "fB", name := "B", children := [] }
      else
        { value := none, dependencies := [], calc_func := none, name := n,
          children := [] } }

/-! ## General lemmas about the engine -/

theorem SameShape.same {α : Type} (st : State α) : SameShape st st :=
  ⟨rfl, fun _ => rfl, fun _ => rfl, fun _ => rfl, fun _ => rfl⟩

theorem SameShape.compose {α : Type} {s1 s2 s3 : State α}
    (h12 : SameShape s1 s2) (h23 : SameShape s2 s3) : SameShape s1 s3 :=
  ⟨h23.attrs_eq.trans h12.attrs_eq,
   fun n => (h23.children_eq n).trans (h12.children_eq n),
   fun n => (h23.deps_eq n).trans (h12.deps_eq n),
   fun n => (h23.calc_eq n).trans (h12.calc_eq n),
   fun n => (h23.name_eq n).trans (h12.name_eq n)⟩

theorem setValue_sameShape {α : Type} (st : State α) (an : Name)
    (v : Option (PyVal α)) : SameShape st (st.setValue an v) := by
  refine ⟨rfl, ?_, ?_, ?_, ?_⟩ <;>
    · intro n
      simp only [State.setValue]
      split <;> simp_all

theorem cascadeList_sameShape {α : Type}
    (setf : State α → Name → Option (State α))
    (hstep : ∀ s c s', setf s c = some s' → SameShape s s') :
    ∀ (cs : List Name) (st st' : State α),
      cascadeList setf st cs = some st' → SameShape st st' := by
  intro cs
  induction cs with
  | nil =>
    intro st st' h
    rw [cascadeList] at h
    cases h
    exact SameShape.same st
  | cons c cs ih =>
    intro st st' h
    rw [cascadeList] at h
    split at h
    · cases h
    · rename_i s1 hs1
      exact (hstep st c s1 hs1).compose (ih s1 st' h)

theorem setAttrFuel_sameShape {α : Type} :
    ∀ (fuel : Nat) (st : State α) (an : Name) (v : Option (PyVal α))
      (st' : State α), setAttrFuel fuel st an v = some st' → SameShape st st' := by
  intro fuel
  induction fuel with
  | zero => intro st an v st' h; simp [setAttrFuel] at h
  | succ f ih =>
    intro st an v st' h
    rw [setAttrFuel] at h
    split at h
    · cases h; exact SameShape.same st
    · exact (setValue_sameShape st an v).compose
        (cascadeList_sameShape _ (fun s c s' hs => ih s c none s' hs) _ _ _ h)

theorem finishGet_ok_value {α : Type} (an : Name)
    (r : Except Err (State α × List Name)) (v : PyVal α) (st' : State α)
    (l : List Name) (h : finishGet an r = .ok (v, st', l)) :
    (st'.slotOf an).value = some v := by
  match r with
  | .error e => simp [finishGet] at h
  | .ok (st2, log2) =>
    rw [finishGet] at h
    split at h
    · cases h
    · rename_i v2 heq2
      cases h
      exact heq2

theorem getFuel_ok_value {α : Type} (env : ComputeEnv α) :
    ∀ (fuel : Nat) (st : State α) (an : Name) (v : PyVal α) (st' : State α)
      (l : List Name), getFuel env fuel st an = .ok (v, st', l) →
      (st'.slotOf an).value = some v := by
  intro fuel st an v st' l h
  cases fuel with
  | zero => simp [getFuel] at h
  | succ f =>
    rw [getFuel] at h
    split at h
    · rename_i v0 heq
      cases h
      exact heq
    · split at h
      · cases h
      · exact finishGet_ok_value an _ v st' l h

theorem getFuel_valid_hit {α : Type} (env : ComputeEnv α) (f : Nat)
    (st : State α) (an : Name) (v : PyVal α)
    (h : (st.slotOf an).value = some v) :
    getFuel env (f + 1) st an = .ok (v, st, []) := by
  rw [getFuel]
  simp [h]

theorem cascadeList_keep {α : Type} (setf : State α → Name → Option (State α))
    (b : Name)
    (hstep : ∀ s c s', c ≠ b → (∀ n, b ∉ (s.slotOf n).children) →
      setf s c = some s' →
      s'.slotOf b = s.slotOf b ∧
        ∀ n, (s'.slotOf n).children = (s.slotOf n).children) :
    ∀ (cs : List Name) (st st' : State α), b ∉ cs →
      (∀ n, b ∉ (st.slotOf n).children) →
      cascadeList setf st cs = some st' →
      st'.slotOf b = st.slotOf b ∧
        ∀ n, (st'.slotOf n).children = (st.slotOf n).children := by
  intro cs
  induction cs with
  | nil =>
    intro st st' _ _ h
    rw [cascadeList] at h
    cases h
    exact ⟨rfl, fun _ => rfl⟩
  | cons c cs ih =>
    intro st st' hb hch h
    rw [cascadeList] at h
    split at h
    · cases h
    · rename_i s1 hs1
      have hcb : c ≠ b := fun e => hb (e ▸ List.mem_cons_self c cs)
      obtain ⟨h1, h2⟩ := hstep st c s1 hcb hch hs1
      have hch1 : ∀ n, b ∉ (s1.slotOf n).children := fun n => (h2 n) ▸ hch n
      obtain ⟨h3, h4⟩ := ih s1 st' (fun hm => hb (List.mem_cons_of_mem _ hm)) hch1 h
      exact ⟨h3.trans h1, fun n => (h4 n).trans (h2 n)⟩

theorem setAttrFuel_keep {α : Type} (b : Name) :
    ∀ (fuel : Nat) (st : State α) (an : Name) (v : Option (PyVal α))
      (st' : State α), an ≠ b → (∀ n, b ∉ (st.slotOf n).children) →
      setAttrFuel fuel st an v = some st' →
      st'.slotOf b = st.slotOf b ∧
        ∀ n, (st'.slotOf n).children = (st.slotOf n).children := by
  intro fuel
  induction fuel with
  | zero => intro st an v st' _ _ h; simp [setAttrFuel] at h
  | succ f ih =>
    intro st an v st' han hch h
    rw [setAttrFuel] at h
    split at h
    · cases h; exact ⟨rfl, fun _ => rfl⟩
    · have base1 : (st.setValue an v).slotOf b = st.slotOf b := by
        simp only [State.setValue]
        rw [if_neg (fun e => han e.symm)]
      have base2 : ∀ n,
          ((st.setValue an v).slotOf n).children = (st.slotOf n).children := by
        intro n
        simp only [State.setValue]
        split <;> simp_all
      obtain ⟨h1, h2⟩ := cascadeList_keep _ b
        (fun s c s' hcb hs hss => ih s c none s' hcb hs hss)
        ((st.slotOf an).children) (st.setValue an v) st' (hch an)
        (fun n => (base2 n) ▸ hch n) h
      exact ⟨h1.trans base1, fun n => (h2 n).trans (base2 n)⟩

theorem depLoop_no_depNull {α : Type}
    (getf : State α → Name → Except Err (PyVal α × State α × List Name))
    (an : Name)
    (hval : ∀ s d v s' l, getf s d = .ok (v, s', l) →
      (s'.slotOf d).value = some v)
    (hnd : ∀ s d x y, getf s d ≠ .error (.depNull x y)) :
    ∀ (ds : List Name) (st : State α) (x y : Name),
      depLoop getf an st ds ≠ .error (.depNull x y) := by
  intro ds
  induction ds with
  | nil => intro st x y h; rw [depLoop] at h; cases h
  | cons d ds ih =>
    intro st x y h
    rw [depLoop] at h
    split at h
    · split at h
      · rename_i e he
        cases h
        exact hnd _ _ _ _ he
      · split at h
        · rename_i e he
          cases h
          exact hnd _ _ _ _ he
        · rename_i r2 hr2
          split at h
          · rename_i hnone
            rw [hval _ _ _ _ _ hr2] at hnone
            cases hnone
          · split at h
            · rename_i e he
              cases h
              exact ih _ _ _ he
            · cases h
    · cases h

theorem runCalc_no_depNull {α : Type} (env : ComputeEnv α) (fuel : Nat)
    (an : Name) (cfn : Option Name) (st1 : State α) (log1 : List Name)
    (x y : Name) : runCalc env fuel an cfn st1 log1 ≠ .error (.depNull x y) := by
  intro h
  unfold runCalc at h
  split at h
  · cases h
  · split at h
    · cases h
    · split at h
      · cases h
      · split at h
        · cases h
        · cases h

theorem finishGet_no_depNull {α : Type} (an : Name)
    (r : Except Err (State α × List Name))
    (hr : ∀ x y, r ≠ .error (.depNull x y)) :
    ∀ x y, finishGet an r ≠ .error (.depNull x y) := by
  intro x y h
  match r with
  | .error e =>
    rw [finishGet] at h
    cases h
    exact hr x y rfl
  | .ok (st2, log2) =>
    rw [finishGet] at h
    split at h
    · cases h
    · cases h

theorem Evolves.stay {α : Type} (st : State α) : Evolves st st :=
  ⟨rfl, fun _ => rfl, fun _ => rfl, fun _ _ h => h, fun _ _ h => Or.inl h⟩

theorem Evolves.chain {α : Type} {s1 s2 s3 : State α}
    (h12 : Evolves s1 s2) (h23 : Evolves s2 s3) : Evolves s1 s3 := by
  refine ⟨h23.attrs_eq.trans h12.attrs_eq,
    fun n => (h23.deps_eq n).trans (h12.deps_eq n),
    fun n => (h23.calc_eq n).trans (h12.calc_eq n),
    fun n c hc => h23.child_mono n c (h12.child_mono n c hc),
    fun n c hc => ?_⟩
  rcases h23.child_new n c hc with h | h
  · exact h12.child_new n c h
  · exact Or.inr ((h12.deps_eq c) ▸ h)

theorem sameShape_evolves {α : Type} {st st' : State α}
    (h : SameShape st st') : Evolves st st' :=
  ⟨h.attrs_eq, h.deps_eq, h.calc_eq,
   fun n _c hc => (h.children_eq n) ▸ hc,
   fun n _c hc => Or.inl ((h.children_eq n) ▸ hc)⟩

theorem addChild_mem {α : Type} (st : State α) (d an : Name) :
    an ∈ ((st.addChild d an).slotOf d).children := by
  simp only [State.addChild]
  split
  · assumption
  · simp

theorem addChild_evolves {α : Type} (st : State α) (d an : Name)
    (h : d ∈ (st.slotOf an).dependencies) : Evolves st (st.addChild d an) := by
  simp only [State.addChild]
  split
  · exact Evolves.stay st
  · refine ⟨rfl, fun n => ?_, fun n => ?_, fun n c hc => ?_, fun n c hc => ?_⟩
    · dsimp only; split <;> simp_all
    · dsimp only; split <;> simp_all
    · dsimp only
      split
      · rename_i he; subst he; exact List.mem_append_left _ hc
      · exact hc
    · dsimp only at hc
      split at hc
      · rename_i he
        subst he
        rcases List.mem_append.mp hc with h1 | h1
        · exact Or.inl h1
        · rcases List.mem_singleton.mp h1 with rfl
          exact Or.inr h
      · exact Or.inl hc

theorem depLoop_evolves {α : Type}
    (getf : State α → Name → Except Err (PyVal α × State α × List Name))
    (an : Name)
    (hget : ∀ s d v s' l, getf s d = .ok (v, s', l) → Evolves s s') :
    ∀ (ds : List Name) (st st' : State α) (l : List Name),
      (∀ d ∈ ds, d ∈ (st.slotOf an).dependencies) →
      depLoop getf an st ds = .ok (st', l) → Evolves st st' := by
  intro ds
  induction ds with
  | nil =>
    intro st st' l _ h
    rw [depLoop] at h
    cases h
    exact Evolves.stay st
  | cons d ds ih =>
    intro st st' l hmem h
    rw [depLoop] at h
    split at h
    · split at h
      · cases h
      · rename_i v1 st1 l1 h1
        have e1 : Evolves st st1 := hget _ _ _ _ _ h1
        have hd1 : d ∈ (st1.slotOf an).dependencies :=
          (e1.deps_eq an) ▸ hmem d (List.mem_cons_self d ds)
        have e2 : Evolves st1 (st1.addChild d an) := addChild_evolves st1 d an hd1
        split at h
        · cases h
        · rename_i v2 st3 l2 h2
          have e3 : Evolves (st1.addChild d an) st3 := hget _ _ _ _ _ h2
          have e13 : Evolves st st3 := (e1.chain e2).chain e3
          split at h
          · cases h
          · split at h
            · cases h
            · rename_i st4 l3 h3
              cases h
              refine e13.chain (ih st3 st' l3 ?_ h3)
              intro d' hd'
              exact (e13.deps_eq an) ▸ hmem d' (List.mem_cons_of_mem d hd')
    · cases h

theorem runCalc_sameShape {α : Type} (env : ComputeEnv α) (fuel : Nat)
    (an : Name) (cfn : Option Name) (st1 : State α) (log1 : List Name)
    (st2 : State α) (log2 : List Name)
    (h : runCalc env fuel an cfn st1 log1 = .ok (st2, log2)) :
    SameShape st1 st2 := by
  unfold runCalc at h
  split at h
  · cases h; exact SameShape.same st1
  · split at h
    · cases h
    · split at h
      · cases h; exact SameShape.same st1
      · split at h
        · cases h
        · rename_i hset
          cases h
          exact setAttrFuel_sameShape fuel st1 _ _ _ hset

theorem finishGet_ok_state {α : Type} (an : Name)
    (r : Except Err (State α × List Name)) (v : PyVal α) (st' : State α)
    (l : List Name) (h : finishGet an r = .ok (v, st', l)) :
    r = .ok (st', l) := by
  match r with
  | .error e => simp [finishGet] at h
  | .ok (st2, log2) =>
    rw [finishGet] at h
    split at h
    · cases h
    · cases h
      rfl

theorem getFuel_evolves {α : Type} (env : ComputeEnv α) :
    ∀ (fuel : Nat) (st : State α) (an : Name) (v : PyVal α) (st' : State α)
      (l : List Name), getFuel env fuel st an = .ok (v, st', l) →
      Evolves st st' := by
  intro fuel
  induction fuel with
  | zero => intro st an v st' l h; rw [getFuel] at h; cases h
  | succ f ih =>
    intro st an v st' l h
    rw [getFuel] at h
    split at h
    · cases h
      exact Evolves.stay st
    · split at h
      · cases h
      · rename_i st1 log1 h1
        have e1 : Evolves st st1 :=
          depLoop_evolves (getFuel env f) an
            (fun s d w s' l' hs => ih s d w s' l' hs) _ st st1 log1
            (fun d hd => hd) h1
        have h2 := finishGet_ok_state an _ v st' l h
        exact e1.chain (sameShape_evolves (runCalc_sameShape env f an _ st1 log1 st' l h2))

theorem depLoop_registers {α : Type}
    (getf : State α → Name → Except Err (PyVal α × State α × List Name))
    (an : Name)
    (hget : ∀ s d v s' l, getf s d = .ok (v, s', l) → Evolves s s') :
    ∀ (ds : List Name) (st st' : State α) (l : List Name),
      (∀ d ∈ ds, d ∈ (st.slotOf an).dependencies) →
      depLoop getf an st ds = .ok (st', l) →
      ∀ d ∈ ds, an ∈ (st'.slotOf d).children := by
  intro ds
  induction ds with
  | nil => intro st st' l _ _ d hd; cases hd
  | cons d ds ih =>
    intro st st' l hmem h d' hd'
    rw [depLoop] at h
    split at h
    · split at h
      · cases h
      · rename_i v1 st1 l1 h1
        have e1 : Evolves st st1 := hget _ _ _ _ _ h1
        have hd1 : d ∈ (st1.slotOf an).dependencies :=
          (e1.deps_eq an) ▸ hmem d (List.mem_cons_self d ds)
        have e2 : Evolves st1 (st1.addChild d an) := addChild_evolves st1 d an hd1
        split at h
        · cases h
        · rename_i v2 st3 l2 h2
          have e3 : Evolves (st1.addChild d an) st3 := hget _ _ _ _ _ h2
          split at h
          · cases h
          · split at h
            · cases h
            · rename_i st4 l3 h3
              cases h
              have e13 : Evolves st st3 := (e1.chain e2).chain e3
              have hmem3 : ∀ b ∈ ds, b ∈ (st3.slotOf an).dependencies :=
                fun b hb => (e13.deps_eq an) ▸ hmem b (List.mem_cons_of_mem d hb)
              rcases List.mem_cons.mp hd' with rfl | hd''
              · have hin2 : an ∈ ((st1.addChild d' an).slotOf d').children :=
                  addChild_mem st1 d' an
                have hin3 : an ∈ (st3.slotOf d').children :=
                  e3.child_mono d' an hin2
                exact (depLoop_evolves getf an hget ds st3 st' l3 hmem3
                  h3).child_mono d' an hin3
              · exact ih st3 st' l3 hmem3 h3 d' hd''
    · cases h

theorem getFuel_registers {α : Type} (env : ComputeEnv α) (fuel : Nat)
    (st : State α) (an : Name) (v : PyVal α) (st' : State α) (l : List Name)
    (h : getFuel env fuel st an = .ok (v, st', l))
    (hinv : (st.slotOf an).value = none) :
    ∀ d ∈ (st.slotOf an).dependencies, an ∈ (st'.slotOf d).children := by
  cases fuel with
  | zero => rw [getFuel] at h; cases h
  | succ f =>
    rw [getFuel] at h
    split at h
    · rename_i v0 heq
      rw [hinv] at heq
      cases heq
    · split at h
      · cases h
      · rename_i st1 log1 h1
        intro d hd
        have hreg : an ∈ (st1.slotOf d).children :=
          depLoop_registers (getFuel env f) an
            (fun s b w s' l' hs => getFuel_evolves env f s b w s' l' hs)
            _ st st1 log1 (fun b hb => hb) h1 d hd
        have h2 := finishGet_ok_state an _ v st' l h
        have hsh := runCalc_sameShape env f an _ st1 log1 st' l h2
        exact (hsh.children_eq d) ▸ hreg

theorem evolves_childrenOK {α : Type} {st st' : State α}
    (e : Evolves st st') (h : childrenOK st) : childrenOK st' := by
  intro d hd c hc
  have hd' : d ∈ st.attrs := e.attrs_eq ▸ hd
  rcases e.child_new d c hc with h1 | h1
  · exact (e.deps_eq c) ▸ h d hd' c h1
  · exact (e.deps_eq c) ▸ h1

theorem countP_le_of_imp (l : List Name) (p q : Name → Bool)
    (h : ∀ a ∈ l, q a = true → p a = true) : l.countP q ≤ l.countP p := by
  induction l with
  | nil => simp [List.countP_nil]
  | cons a l ih =>
    rw [List.countP_cons, List.countP_cons]
    have hrest := ih fun b hb => h b (List.mem_cons_of_mem a hb)
    by_cases hqa : q a = true
    · have hpa := h a (List.mem_cons_self a l) hqa
      simp only [hqa, hpa, if_true]
      omega
    · by_cases hpa : p a = true <;> simp [hqa, hpa] <;> omega

theorem countP_lt_of_flip (l : List Name) (p q : Name → Bool) (x : Name)
    (hx : x ∈ l) (hpx : p x = true) (hqx : q x = false)
    (h : ∀ a ∈ l, q a = true → p a = true) : l.countP q < l.countP p := by
  induction l with
  | nil => cases hx
  | cons a l ih =>
    rw [List.countP_cons, List.countP_cons]
    rcases List.mem_cons.mp hx with rfl | hx'
    · have hle := countP_le_of_imp l p q fun b hb => h b (List.mem_cons_of_mem x hb)
      simp [hpx, hqx]
      omega
    · have hlt := ih hx' fun b hb => h b (List.mem_cons_of_mem a hb)
      by_cases hqa : q a = true
      · have hpa := h a (List.mem_cons_self a l) hqa
        simp only [hqa, hpa, if_true]
        omega
      · by_cases hpa : p a = true <;> simp [hqa, hpa] <;> omega

theorem validCount_setValue_none_le {α : Type} (st : State α) (an : Name) :
    validCount (st.setValue an none) ≤ validCount st := by
  unfold validCount
  apply countP_le_of_imp
  intro a _ hq
  by_cases ha : a = an
  · subst ha
    simp [State.setValue] at hq
  · simpa [State.setValue, ha] using hq

theorem validCount_setValue_none_lt {α : Type} (st : State α) (an : Name)
    (han : an ∈ st.attrs) (hsome : ((st.slotOf an).value).isSome = true) :
    validCount (st.setValue an none) < validCount st := by
  unfold validCount
  apply countP_lt_of_flip _ _ _ an han hsome
  · simp [State.setValue]
  · intro a _ hq
    by_cases ha : a = an
    · subst ha
      simp [State.setValue] at hq
    · simpa [State.setValue, ha] using hq

theorem cascade_inv_total {α : Type} (f : Nat)
    (ih : ∀ (st : State α) (an : Name),
      (∀ n ∈ st.attrs, (st.slotOf n).children ⊆ st.attrs) → an ∈ st.attrs →
      validCount st < f →
      ∃ st', setAttrFuel f st an none = some st' ∧
        validCount st' ≤ validCount st) :
    ∀ (cs : List Name) (st : State α),
      (∀ n ∈ st.attrs, (st.slotOf n).children ⊆ st.attrs) →
      (∀ c ∈ cs, c ∈ st.attrs) → validCount st < f →
      ∃ st', cascadeList (fun s c => setAttrFuel f s c none) st cs = some st' ∧
        validCount st' ≤ validCount st := by
  intro cs
  induction cs with
  | nil =>
    intro st _ _ _
    exact ⟨st, rfl, le_rfl⟩
  | cons c cs ihc =>
    intro st hcl hmem hb
    obtain ⟨s1, hs1, hle1⟩ := ih st c hcl (hmem c (List.mem_cons_self c cs)) hb
    have hsh := setAttrFuel_sameShape f st c none s1 hs1
    have hcl1 : ∀ n ∈ s1.attrs, (s1.slotOf n).children ⊆ s1.attrs := by
      intro n hn
      rw [hsh.attrs_eq] at hn ⊢
      rw [hsh.children_eq n]
      exact hcl n hn
    have hmem1 : ∀ c' ∈ cs, c' ∈ s1.attrs := by
      intro c' hc'
      rw [hsh.attrs_eq]
      exact hmem c' (List.mem_cons_of_mem c hc')
    obtain ⟨st', hst', hle2⟩ := ihc s1 hcl1 hmem1 (lt_of_le_of_lt hle1 hb)
    refine ⟨st', ?_, le_trans hle2 hle1⟩
    rw [cascadeList, hs1]
    exact hst'

theorem invalidate_total {α : Type} :
    ∀ (fuel : Nat) (st : State α) (an : Name),
      (∀ n ∈ st.attrs, (st.slotOf n).children ⊆ st.attrs) → an ∈ st.attrs →
      validCount st < fuel →
      ∃ st', setAttrFuel fuel st an none = some st' ∧
        validCount st' ≤ validCount st := by
  intro fuel
  induction fuel with
  | zero => intro st an _ _ hb; omega
  | succ f ih =>
    intro st an hcl han hb
    rw [setAttrFuel]
    by_cases hv : valIs (st.slotOf an).value none = true
    · exact ⟨st, by rw [if_pos hv], le_rfl⟩
    · have hsome : ((st.slotOf an).value).isSome = true := by
        cases hval : (st.slotOf an).value with
        | none => rw [hval] at hv; simp [valIs] at hv
        | some w => rfl
      have hlt : validCount (st.setValue an none) < validCount st :=
        validCount_setValue_none_lt st an han hsome
      have hcl0 : ∀ n ∈ (st.setValue an none).attrs,
          ((st.setValue an none).slotOf n).children ⊆ (st.setValue an none).attrs := by
        intro n hn
        have hsh := setValue_sameShape st an (none : Option (PyVal α))
        rw [hsh.attrs_eq] at hn ⊢
        rw [hsh.children_eq n]
        exact hcl n hn
      have hmem0 : ∀ c ∈ (st.slotOf an).children, c ∈ (st.setValue an none).attrs :=
        fun c hc => hcl an han hc
      obtain ⟨st', hst', hle⟩ := cascade_inv_total f ih (st.slotOf an).children
        (st.setValue an none) hcl0 hmem0 (by omega)
      refine ⟨st', ?_, le_trans hle (le_of_lt hlt)⟩
      rw [if_neg hv]
      exact hst'

theorem getFuel_no_depNull {α : Type} (env : ComputeEnv α) :
    ∀ (fuel : Nat) (st : State α) (an x y : Name),
      getFuel env fuel st an ≠ .error (.depNull x y) := by
  intro fuel
  induction fuel with
  | zero => intro st an x y h; rw [getFuel] at h; cases h
  | succ f ih =>
    intro st an x y h
    rw [getFuel] at h
    split at h
    · cases h
    · split at h
      · rename_i e he
        cases h
        exact depLoop_no_depNull (getFuel env f) an
          (fun s d v s' l hs => getFuel_ok_value env f s d v s' l hs)
          (fun s d => ih s d) _ st x y he
      · exact finishGet_no_depNull an _
          (fun x' y' => runCalc_no_depNull env f an _ _ _ x' y') x y h

/-! ## The claims -/

/-- C1, counterexample: the claim says a write on one instance leaves the
value observed through another instance unchanged, `value`/`children`
being per-instance.  In the code, `value` and `children` live on the
descriptor object, a class attribute shared by every instance: initially
instance 1 reads `a1` as the int object `1` (identity 0); after instance
0 writes the fresh int `2` (identity 5), instance 1 reads that new
object — its observation changed. -/
theorem c1_per_instance_counterexample :
    (instanceGetattr 1 noEnv 2 c1St "a1").map (fun r => r.1) =
      .ok (.obj 0 1) ∧
    instanceSetattr 0 3 c1St "a1" (some (.obj 5 2)) = some c1StW ∧
    (instanceGetattr 1 noEnv 2 c1StW "a1").map (fun r => r.1) =
      .ok (.obj 5 2) ∧
    (PyVal.obj 5 (2 : Int)) ≠ (.obj 0 1) :=
  ⟨rfl, rfl, rfl, by decide⟩

/-- C1, amended: ALL slot state — `value` and `children` included — is
class-level descriptor state shared by every instance of the owner type;
the instance through which an attribute is read or written has no effect
on the operation, so a write through any instance is observed identically
through every instance. -/
theorem c1_slot_state_shared_across_instances {α : Type} (i j : Nat)
    (env : ComputeEnv α) (fuel : Nat) (st : State α) (an : Name)
    (v : Option (PyVal α)) :
    instanceGetattr i env fuel st an = instanceGetattr j env fuel st an ∧
    instanceSetattr i fuel st an v = instanceSetattr j fuel st an v :=
  ⟨rfl, rfl⟩

/-- C2, counterexample: the claim says writing a value EQUAL to the
stored one (equality, not identity) is a no-op.  `__set__` compares with
`is not` (identity): here the stored `A` is the int object `5` with
identity 0, the written value is a distinct int object `5` with identity
2 — equal payloads, different objects — and the write both replaces the
stored value and invalidates the child `B` (whose value was the int `9`
with identity 1 and becomes `AttrNullState`). -/
theorem c2_equality_noop_counterexample :
    pyPayload (PyVal.obj 2 (5 : Int)) = pyPayload (PyVal.obj 0 (5 : Int)) ∧
    (c2St.slotOf "A").value = some (.obj 0 5) ∧
    (c2St.slotOf "B").value = some (.obj 1 9) ∧
    c2Obs = some (some (.obj 2 5), none) ∧
    (PyVal.obj 2 (5 : Int)) ≠ (.obj 0 5) :=
  ⟨rfl, by decide, by decide, by decide, by decide⟩

/-- C2, amended: the write comparison is identity (`is`), not equality:
writing a value identical to the currently stored one is a no-op — the
state is returned unchanged, so nothing is replaced, no child is
invalidated, and no dependent can be recomputed as a result; a merely
equal but non-identical value does trigger the replacement and
invalidation cascade (see the counterexample). -/
theorem c2_identity_noop {α : Type} (f : Nat) (st : State α) (an : Name)
    (v : Option (PyVal α)) (h : valIs (st.slotOf an).value v = true) :
    setAttrFuel (f + 1) st an v = some st := by
  rw [setAttrFuel]
  rw [if_pos h]

/-- C2, witness: writing to `A` the very object it already stores is a
no-op. -/
theorem c2_identity_noop_witness :
    setAttrFuel 1 c2St "A" (some (.obj 0 5)) = some c2St :=
  c2_identity_noop 0 c2St "A" (some (.obj 0 5)) (by decide)

/-- C3, counterexample: the first `get(a7)` on a fresh instance yields
the expression `((1*(1+2)+4)*(1+(1+2)+((1+2)+3)*6+5)+7)`, whose value is
322, not 196 as the claim states (the claim's own equation
`... = 196` is false: the expression evaluates to 322). -/
theorem c3_first_get_value_counterexample :
    exFirstEval = .ok (some 322) ∧
    ((1 * (1 + 2) + 4) * (1 + (1 + 2) + ((1 + 2) + 3) * 6 + 5) + 7 : Int) =
      322 ∧
    (322 : Int) ≠ 196 :=
  ⟨rfl, by norm_num, by norm_num⟩

/-- C3, amended: the first `get(a7)` on a fresh instance invokes the
compute method of each of a2, a3, a4, a5, a7 exactly once, in the
dependency-respecting order a2, a4, a3, a5, a7 (every attribute after
all of its dependencies), and the resulting a7 expression evaluates to
`((1*(1+2)+4)*(1+(1+2)+((1+2)+3)*6+5)+7) = 322`. -/
theorem c3_amended_first_get_computes_once_each :
    exFirstLog = .ok ["a2", "a4", "a3", "a5", "a7"] ∧
    exFirstEval = .ok (some 322) :=
  ⟨rfl, rfl⟩

/-- C4: after the completed first `get(a7)`, writing `a6 = 4` and reading
`a7` again invokes only the compute methods of a5 and a7 (in that
order); the slots of a2, a3 and a4 — values, dependencies, compute
bindings and children — are untouched, and the returned a7 evaluates to
`((1*(1+2)+4)*(1+(1+2)+((1+2)+3)*4+5)+7) = 238`, reflecting the new
a6. -/
theorem c4_write_a6_recomputes_only_a5_a7 :
    exSecondLog = .ok ["a5", "a7"] ∧
    exStFinal.slotOf "a2" = exSt1.slotOf "a2" ∧
    exStFinal.slotOf "a3" = exSt1.slotOf "a3" ∧
    exStFinal.slotOf "a4" = exSt1.slotOf "a4" ∧
    exSecondEval = .ok (some 238) ∧
    ((1 * (1 + 2) + 4) * (1 + (1 + 2) + ((1 + 2) + 3) * 4 + 5) + 7 : Int) =
      238 :=
  ⟨rfl, by decide, by decide, by decide, rfl, by norm_num⟩

/-- C5: with no intervening write, a repeated `get(A)` returns the
identical value, changes nothing, and performs zero compute invocations
(the valid slot is returned immediately), so across the two calls the
compute method runs only as often as in the first call — at most
once. -/
theorem c5_memoized_repeat_get {α : Type} (env : ComputeEnv α) (f g : Nat)
    (st : State α) (an : Name) (v : PyVal α) (st' : State α) (l : List Name)
    (h : getFuel env f st an = .ok (v, st', l)) :
    getFuel env (g + 1) st' an = .ok (v, st', []) :=
  getFuel_valid_hit env g st' an v (getFuel_ok_value env f st an v st' l h)

/-- C5, witness: reading the valid `x` twice returns the same value with
an empty compute log and the same state both times. -/
theorem c5_memoized_repeat_get_witness :
    getFuel noEnv 2 c5St "x" = .ok (.obj 0 5, c5St, []) :=
  c5_memoized_repeat_get noEnv 1 1 c5St "x" (.obj 0 5) c5St [] rfl

/-- C6: if `B` declares `A` as a dependency but has never been read (so
`B` appears in no children list), writing any value to `A` leaves `B`'s
slot — in particular its stored value — unchanged. -/
theorem c6_unread_dependent_not_invalidated {α : Type} (fuel : Nat)
    (st : State α) (A B : Name) (v : Option (PyVal α)) (st' : State α)
    (_hdep : A ∈ (st.slotOf B).dependencies) (hne : B ≠ A)
    (hunread : ∀ n, B ∉ (st.slotOf n).children)
    (hset : setAttrFuel fuel st A v = some st') :
    st'.slotOf B = st.slotOf B :=
  (setAttrFuel_keep B fuel st A v st' (Ne.symm hne) hunread hset).1

/-- C6, witness: in `c6St`, `B` depends on `A` and was never read;
writing a fresh value to `A` leaves `B`'s slot unchanged. -/
theorem c6_unread_dependent_not_invalidated_witness :
    c6StW.slotOf "B" = c6St.slotOf "B" :=
  c6_unread_dependent_not_invalidated 3 c6St "A" "B" (some (.obj 5 2)) c6StW
    (by decide) (by decide)
    (fun n => by
      by_cases h1 : n = "A" <;> by_cases h2 : n = "B" <;>
        simp [c6St, h1, h2])
    rfl

/-- C7, counterexample: when the derived dependency `D` of `A` violates
its compute contract (its method runs but assigns nothing), the read of
`A` fails with `D`'s own `StaleComputeError` (`staleCalc "D"`, the line
106-108 raise inside `D`'s recursive `__get__`, propagated through the
`hasattr` of line 79), not with the `DependencyUpdateError`
(`depNull`) the claim names. -/
theorem c7_depnull_error_counterexample :
    getFuel c7Env 5 c7St "A" = .error (.staleCalc "D") ∧
    Err.staleCalc "D" ≠ Err.depNull "A" "D" :=
  ⟨rfl, by decide⟩

/-- C7, amended: when a derived dependency `D` fails to produce a value,
the read of `A` fails with the `StaleComputeError` raised inside `D`'s
own recursive `__get__` (as in the concrete scenario), and the
`DependencyUpdateError` branch of lines 91-95 is unreachable: no read
ever returns that error, because a successful `__get__` always leaves
(and returns) a non-`Invalid` stored value. -/
theorem c7_stale_compute_propagates_and_depnull_unreachable :
    getFuel c7Env 5 c7St "A" = .error (.staleCalc "D") ∧
    (∀ (α : Type) (env : ComputeEnv α) (fuel : Nat) (st : State α)
      (an x y : Name), getFuel env fuel st an ≠ .error (.depNull x y)) :=
  ⟨rfl, fun _ env fuel st an x y => getFuel_no_depNull env fuel st an x y⟩

/-- C8, counterexample: the claim says that after every attribute has
been read at least once the children lists equal the full
reverse-dependency set.  With `B = DependentAttr(7, ['A'], 'fB', 'B')` —
a dependent attribute constructed with a concrete initial value — both
reads are memoization hits that register nothing: after reading every
attribute once, `B` still does not appear among `A`'s children although
`A` is a declared dependency of `B`. -/
theorem c8_children_subset_counterexample :
    getFuel noEnv 2 c8St "A" = .ok (.obj 0 1, c8St, []) ∧
    getFuel noEnv 2 c8St "B" = .ok (.obj 1 7, c8St, []) ∧
    "A" ∈ (c8St.slotOf "B").dependencies ∧
    "B" ∉ (c8St.slotOf "A").children :=
  ⟨rfl, rfl, by decide, by decide⟩

/-- C8, amended: every operation preserves the subset invariant (each
registered child really declares its parent as a dependency); a write
leaves every children list exactly as it was; a read never removes a
child; and a successful read of an attribute that was INVALID registers
it as a child of each of its dependencies.  Hence the children lists
converge to the full reverse-dependency set once every attribute with
dependencies has been read at least once from the invalid state (as on a
fresh instance whose derived attributes start invalid) — but not
necessarily after mere reads, which register nothing on valid slots (see
the counterexample). -/
theorem c8_children_invariant_and_lazy_registration :
    (∀ (α : Type) (fuel : Nat) (st : State α) (an : Name)
      (v : Option (PyVal α)) (st' : State α),
      setAttrFuel fuel st an v = some st' →
      (childrenOK st → childrenOK st') ∧
        ∀ n, (st'.slotOf n).children = (st.slotOf n).children) ∧
    (∀ (α : Type) (env : ComputeEnv α) (fuel : Nat) (st : State α)
      (an : Name) (v : PyVal α) (st' : State α) (l : List Name),
      getFuel env fuel st an = .ok (v, st', l) →
      (childrenOK st → childrenOK st') ∧
      (∀ n c, c ∈ (st.slotOf n).children → c ∈ (st'.slotOf n).children) ∧
      ((st.slotOf an).value = none →
        ∀ d ∈ (st.slotOf an).dependencies, an ∈ (st'.slotOf d).children)) := by
  constructor
  · intro α fuel st an v st' h
    have hsh := setAttrFuel_sameShape fuel st an v st' h
    exact ⟨evolves_childrenOK (sameShape_evolves hsh), hsh.children_eq⟩
  · intro α env fuel st an v st' l h
    have he := getFuel_evolves env fuel st an v st' l h
    exact ⟨evolves_childrenOK he, he.child_mono,
      fun hinv => getFuel_registers env fuel st an v st' l h hinv⟩

/-- C9, counterexample: `DeterminantAttr(ds, f, n)` with the EMPTY
dependency list is not identical to `DependentAttr(None, ds, f, n)`: the
former stores `AttrNullState`, while `DependentAttr.__init__` converts a
`None` initial value to `AttrNullState` only when the dependency list is
nonempty, so the latter stores Python `None`. -/
theorem c9_determinant_empty_deps_counterexample :
    DeterminantAttr_init (α := Int) (some []) (some "f") "n" ≠
      DependentAttr_init (α := Int) (some .pyNone) (some []) (some "f") "n" := by
  decide

/-- C9, amended: `IndependentAttr(v, n)` is identical to
`DependentAttr(v, [], None, n)` for every initial value `v`; and
`DeterminantAttr(ds, f, n)` is identical to
`DependentAttr(None, ds, f, n)` for every NONEMPTY dependency list `ds`
(for the empty list the two differ: `AttrNullState` versus Python
`None`). -/
theorem c9_constructor_delegation :
    (∀ (α : Type) (iv : Option (PyVal α)) (n : Name),
      IndependentAttr_init iv n = DependentAttr_init iv (some []) none n) ∧
    (∀ (α : Type) (ds : List Name) (f : Option Name) (n : Name), ds ≠ [] →
      DeterminantAttr_init (α := α) (some ds) f n =
        DependentAttr_init (some .pyNone) (some ds) f n) := by
  constructor
  · intro α iv n
    rfl
  · intro α ds f n hds
    cases ds with
    | nil => exact absurd rfl hds
    | cons d ds => rfl

/-- C10: writing the `Invalid` marker to an already-invalid slot is a
no-op (the `is` check stops the cascade, so an already-invalid slot
propagates nothing further); and the invalidation cascade always
terminates — with any fuel exceeding the number of currently valid
declared attributes the recursion completes, with no acyclicity
assumption on the discovered children relation, because each effective
step strictly decreases the number of valid slots. -/
theorem c10_invalidation_noop_and_terminates :
    (∀ (α : Type) (f : Nat) (st : State α) (an : Name),
      (st.slotOf an).value = none → setAttrFuel (f + 1) st an none = some st) ∧
    (∀ (α : Type) (fuel : Nat) (st : State α) (an : Name),
      (∀ n ∈ st.attrs, (st.slotOf n).children ⊆ st.attrs) → an ∈ st.attrs →
      validCount st < fuel →
      ∃ st', setAttrFuel fuel st an none = some st' ∧
        validCount st' ≤ validCount st) := by
  constructor
  · intro α f st an h
    rw [setAttrFuel]
    rw [h]
    simp [valIs]
  · intro α fuel st an hcl han hb
    exact invalidate_total fuel st an hcl han hb

end Dataflow

